import Mathlib

/-!
Shallow embedding of the blather chat-room server and client
(src/server_funcs.c, src/bl_server.c, src/bl_client.c).

The C structs `mesg_t`, `join_t`, `client_t`, `server_t` become Lean
structures; the `client[MAXCLIENTS]` array is modelled as the list of its
live prefix `client[0 .. n_clients)` (so `n_clients` is the list length),
with an explicit `junk` function standing for the array contents beyond the
live prefix where the source reads past `n_clients`
(see `server_check_sources`).  System-call effects are made explicit:
`write`/`close` outcomes are oracles (`writeOk`, `closeOk`), `open` is an
oracle from path names to descriptors, FIFO reads become explicit input
parameters, and each operation returns the writes, closes and unlinks it
performed alongside the new server state.
-/

namespace Blather

/-- Message kinds of `mesg_kind_t` used by the three source files. -/
inductive MesgKind where
  | BL_MESG
  | BL_JOINED
  | BL_DEPARTED
  | BL_DISCONNECTED
  | BL_SHUTDOWN
  | BL_PING
deriving DecidableEq, Repr, Inhabited

/-- The fixed-layout `mesg_t` record: kind, originating name, payload. -/
structure MesgT where
  kind : MesgKind
  name : String
  body : String
deriving DecidableEq, Repr, Inhabited

/-- The fixed-layout `join_t` record a client writes on the join FIFO. -/
structure JoinT where
  name : String
  to_client_fname : String
  to_server_fname : String
deriving DecidableEq, Repr, Inhabited

/-- The server-side `client_t` record. -/
structure ClientT where
  name : String
  to_client_fd : Int
  to_server_fd : Int
  to_client_fname : String
  to_server_fname : String
  last_contact_time : Int
  data_ready : Int
deriving DecidableEq, Repr, Inhabited

/-- The `server_t` state.  The `client` list is the live prefix
`client[0 .. n_clients)` of the C array, so `n_clients` is its length. -/
structure ServerT where
  server_name : String
  join_fd : Int
  client : List ClientT
  join_ready : Int
  time_sec : Int
  log_fd : Int
deriving DecidableEq, Repr, Inhabited

/-- The live client count `server->n_clients`. -/
def ServerT.n_clients (server : ServerT) : Nat := server.client.length

/-- Modelled from the spec: `MAXCLIENTS` is defined in `blather.h`, which is
not under `src/`.  The spec fixes only its role (the bound of the client
table); the numeric value is a modelling choice and no claim depends on it. -/
def MAXCLIENTS : Nat := 256

/-- The Linux `poll.h` value of `POLLIN` (0x0001).  The source passes this
constant where `poll` expects the descriptor count. -/
def POLLIN : Int := 1

/-- Modelled from the spec: `check_fail` is a macro of `blather.h`, which is
not under `src/`.  Per spec section 7, server-side errors are surfaced to the
diagnostic log and serving continues; so `check_fail` appends a diagnostic
when the condition holds and does not abort. -/
def check_fail (cond : Bool) (msg : String) (errlog : List String) : List String :=
  if cond then errlog ++ [msg] else errlog

/-- One `write` of a full `mesg_t` to a descriptor, with its outcome. -/
structure WriteAttempt where
  fd : Int
  mesg : MesgT
  ok : Bool
deriving DecidableEq, Repr, Inhabited

/-- `server_broadcast` (server_funcs.c lines 156-166): write the record to
every live client's `to_client_fd` in table order; each failed write is
reported through `check_fail` and the loop continues.  Returns the write
attempts in order together with the diagnostic log. -/
def server_broadcast (writeOk : Int → Bool) (server : ServerT) (mesg : MesgT) :
    List WriteAttempt × List String :=
  server.client.foldl
    (fun acc c =>
      let ok := writeOk c.to_client_fd
      (acc.1 ++ [⟨c.to_client_fd, mesg, ok⟩],
       check_fail (!ok) "write error" acc.2))
    ([], [])

/-- `server_add_client` (server_funcs.c lines 89-123): refuse with -1 when
the table is full, otherwise build the record from the join (descriptors
from the `open` oracle, `last_contact_time := now`, `data_ready := 0`),
append it, and broadcast a `BL_JOINED` record bearing the client's name.
Returns the new state, the C return value, and the broadcast writes. -/
def server_add_client (now : Int) (writeOk : Int → Bool) (openFd : String → Int)
    (server : ServerT) (join : JoinT) :
    ServerT × Int × List WriteAttempt :=
  if server.client.length ≥ MAXCLIENTS then
    (server, -1, [])
  else
    let cl : ClientT :=
      { name := join.name
        to_client_fd := openFd join.to_client_fname
        to_server_fd := openFd join.to_server_fname
        to_client_fname := join.to_client_fname
        to_server_fname := join.to_server_fname
        last_contact_time := now
        data_ready := 0 }
    let join_mesg : MesgT := { kind := .BL_JOINED, name := cl.name, body := "" }
    let s1 : ServerT := { server with client := server.client ++ [cl] }
    (s1, 0, (server_broadcast writeOk s1 join_mesg).1)

/-- `server_remove_client` (server_funcs.c lines 130-148): return -1 when
`idx >= n_clients`; otherwise close the two descriptors (short-circuit: the
second close is attempted only when the first succeeds) and, if either close
fails, return -1 WITHOUT unlinking or shifting; on success unlink both FIFO
paths, left-shift the suffix down by one and decrement `n_clients`.
Returns (new state, C return value, close calls attempted, unlinked paths). -/
def server_remove_client (closeOk : Int → Bool) (server : ServerT) (idx : Nat) :
    ServerT × Int × List Int × List String :=
  if server.client.length ≤ idx then
    (server, -1, [], [])
  else
    let c := server.client.getD idx default
    let ok1 := closeOk c.to_client_fd
    let closes := if ok1 then [c.to_client_fd, c.to_server_fd] else [c.to_client_fd]
    if !ok1 || !(closeOk c.to_server_fd) then
      (server, -1, closes, [])
    else
      ({ server with client := server.client.eraseIdx idx }, 0, closes,
       [c.to_client_fname, c.to_server_fname])

/-- The removal loop of `server_shutdown` (server_funcs.c lines 68-70):
`for (i = 0; i < n_clients; ++i) server_remove_client(server, i)` with
`n_clients` shrinking under the loop.  Structural fuel: the loop runs at
most the initial `n_clients` iterations since `i` increments every pass and
`n_clients` never grows, so `server_shutdown` passes `n_clients` as fuel.
Returns the final state and the FIFO paths unlinked by the loop. -/
def server_shutdown_loop (closeOk : Int → Bool) :
    Nat → ServerT → Nat → ServerT × List String
  | 0, server, _ => (server, [])
  | fuel + 1, server, i =>
    if i < server.client.length then
      let r := server_remove_client closeOk server i
      let rest := server_shutdown_loop closeOk fuel r.1 (i + 1)
      (rest.1, r.2.2.2 ++ rest.2)
    else (server, [])

/-- `server_shutdown` (server_funcs.c lines 58-77): close `join_fd`, unlink
the path `server->server_name` (NOTE: the bare name, with no ".fifo"
suffix appended), broadcast a zeroed `BL_SHUTDOWN` record, run the removal
loop, close `log_fd`.  Returns (new state, closed fds, unlinked paths,
broadcast writes). -/
def server_shutdown (closeOk : Int → Bool) (writeOk : Int → Bool) (server : ServerT) :
    ServerT × List Int × List String × List WriteAttempt :=
  let mesg : MesgT := { kind := .BL_SHUTDOWN, name := "", body := "" }
  let writes := (server_broadcast writeOk server mesg).1
  let r := server_shutdown_loop closeOk server.client.length server 0
  (r.1, [server.join_fd, server.log_fd], [server.server_name] ++ r.2, writes)

/-- The `client[k]` array cell as `server_check_sources` reads it: the live
record for `k < n_clients`, otherwise whatever junk occupies the array. -/
def clientSlot (server : ServerT) (junk : Nat → ClientT) (k : Nat) : ClientT :=
  server.client.getD k (junk k)

/-- The count argument `server_check_sources` passes to `poll`
(server_funcs.c line 201): the constant `POLLIN`, not `1 + n_clients`. -/
def check_sources_nfds : Int := POLLIN

/-- The descriptors `server_check_sources` stores into `poll_fds`
(server_funcs.c lines 191-198): slot 0 = `join_fd`, slot 1 = `log_fd`,
slot `i+2` = `client[i + 2].to_server_fd` for `0 <= i < n_clients` (the
source indexes the client array at `i + 2`, not `i`). -/
def check_sources_slots (server : ServerT) (junk : Nat → ClientT) : List Int :=
  [server.join_fd, server.log_fd] ++
    (List.range server.client.length).map
      (fun i => (clientSlot server junk (i + 2)).to_server_fd)

/-- `server_check_sources` (server_funcs.c lines 186-227), on the path where
`poll` is not interrupted by a signal.  `readable fd` says whether `fd` has
data; `poll` fills `revents` only for the first `nfds` slots, and the code
passes `POLLIN` as `nfds`, so only slot 0 is ever examined.  The code then
sets `join_ready` from slot 0 and `client[i].data_ready` from slot `i+2`
(never clearing `data_ready` when the slot is not flagged). -/
def server_check_sources (readable : Int → Bool) (junk : Nat → ClientT)
    (server : ServerT) : ServerT :=
  let fds := check_sources_slots server junk
  let nfds := check_sources_nfds.toNat
  let revents : Nat → Bool := fun k => decide (k < nfds) && readable (fds.getD k 0)
  let s1 := if revents 0 then { server with join_ready := 1 } else server
  { s1 with
    client := s1.client.mapIdx
      (fun i c => if revents (i + 2) then { c with data_ready := 1 } else c) }

/-- `server_handle_join` (server_funcs.c lines 243-253): read exactly one
join record from the join FIFO (modelled as the head of `joinQueue`), log
its name, set `join_ready := 0`.  The source performs nothing else: no
`server_add_client` call and no broadcast.  Returns the new state, the
remaining queue, and the (empty) list of broadcast writes.  The empty-queue
case is unreachable under the `join_ready` precondition (the read would
block) and leaves the state unchanged. -/
def server_handle_join (joinQueue : List JoinT) (server : ServerT) :
    ServerT × List JoinT × List WriteAttempt :=
  match joinQueue with
  | [] => (server, [], [])
  | _ :: rest => ({ server with join_ready := 0 }, rest, [])

/-- `server_handle_client` (server_funcs.c lines 280-308): read one record
(`mesg`) from `client[idx].to_server_fd`, clear `data_ready`, set
`last_contact_time := now`.  The `switch (mesg.kind)` in the source writes
its alternatives as plain labels without the `case` keyword, so for every
kind control jumps to `default: break` and nothing is dispatched — in
particular nothing is broadcast.  Returns the new state and the (empty)
list of broadcast writes.  `mesg` is deliberately unused: so is the record
in the source, which is the bug. -/
def server_handle_client (now : Int) (mesg : MesgT) (server : ServerT) (idx : Nat) :
    ServerT × List WriteAttempt :=
  let s1 : ServerT :=
    { server with
      client := server.client.mapIdx
        (fun i c =>
          if i = idx then { c with data_ready := 0, last_contact_time := now } else c) }
  (s1, [])

/-- The on-disk log of advanced mode: a `who_t` region of `whoSize` bytes at
offset 0 followed by the appended `mesg_t` records (spec section 3). -/
structure LogFile where
  whoSize : Nat
  msgs : List MesgT
deriving DecidableEq, Repr, Inhabited

/-- Byte size of the log file: `who` region plus one record of `mesgSize`
bytes per appended message (`lseek(log_fd, 0, SEEK_END)`). -/
def logSize (mesgSize : Nat) (log : LogFile) : Nat :=
  log.whoSize + log.msgs.length * mesgSize

/-- A `pread` of one `mesg_t` at a nonnegative byte offset: returns the
record when the offset is record-aligned inside the append region, `none`
when the read falls outside it or straddles record boundaries (the C buffer
content is then unspecified). -/
def logReadAt (mesgSize : Nat) (log : LogFile) (off : Nat) : Option MesgT :=
  if log.whoSize ≤ off ∧ (off - log.whoSize) % mesgSize = 0 ∧
      (off - log.whoSize) / mesgSize < log.msgs.length then
    some (log.msgs.getD ((off - log.whoSize) / mesgSize) default)
  else
    none

/-- A `pread` at a signed offset, as computed by the client's `long`
arithmetic: negative offsets read nothing. -/
def preadMesg (mesgSize : Nat) (log : LogFile) (off : Int) : Option MesgT :=
  if 0 ≤ off then logReadAt mesgSize log off.toNat else none

/-- The rendering `"[name] : body"` the client prints for a log record
(bl_client.c line 72). -/
def logRender (m : MesgT) : String :=
  "[" ++ m.name ++ "] : " ++ m.body

/-- The `%last` branch of `user_worker` (bl_client.c lines 60-74): seek to
the end of the log, step back `num` records, then read and render `num`
records forward at successive record offsets.  `num` is the value
`atoi(simpio->buf + 6)` parsed from the line `%last N`.  Each element is
the rendered line, or `none` where the `pread` content is unspecified. -/
def user_last (mesgSize : Nat) (log : LogFile) (num : Nat) : List (Option String) :=
  (List.range num).map
    (fun (i : Nat) =>
      (preadMesg mesgSize log
        ((logSize mesgSize log : Int) - (num : Int) * (mesgSize : Int) +
          (i : Int) * (mesgSize : Int))).map logRender)

/-- One table operation for the claim about sequences of
`server_add_client` / `server_remove_client` calls, with its oracles. -/
inductive ServerOp where
  | add (now : Int) (writeOk : Int → Bool) (openFd : String → Int) (join : JoinT)
  | remove (closeOk : Int → Bool) (idx : Nat)

/-- Apply one table operation to the server state. -/
def applyOp (server : ServerT) : ServerOp → ServerT
  | .add now writeOk openFd join => (server_add_client now writeOk openFd server join).1
  | .remove closeOk idx => (server_remove_client closeOk server idx).1

/-- A concrete join record used as test input. -/
def joinAlice : JoinT :=
  { name := "alice", to_client_fname := "1.client.fifo", to_server_fname := "1.server.fifo" }

/-- A concrete live client record. -/
def clientA : ClientT :=
  { name := "alice", to_client_fd := 5, to_server_fd := 6,
    to_client_fname := "1.client.fifo", to_server_fname := "1.server.fifo",
    last_contact_time := 0, data_ready := 0 }

/-- A second concrete live client record. -/
def clientB : ClientT :=
  { name := "bob", to_client_fd := 7, to_server_fd := 8,
    to_client_fname := "2.client.fifo", to_server_fname := "2.server.fifo",
    last_contact_time := 0, data_ready := 0 }

/-- A server with no clients and a pending join (`join_ready = 1`). -/
def emptyServer : ServerT :=
  { server_name := "srv", join_fd := 3, client := [], join_ready := 1,
    time_sec := 0, log_fd := 4 }

/-- A server with the single client `clientA`. -/
def serverA : ServerT :=
  { server_name := "srv", join_fd := 3, client := [clientA], join_ready := 0,
    time_sec := 0, log_fd := 4 }

/-- A server with the two clients `clientA`, `clientB`. -/
def serverAB : ServerT :=
  { server_name := "srv", join_fd := 3, client := [clientA, clientB], join_ready := 0,
    time_sec := 0, log_fd := 4 }

/-- A server whose table is full (`n_clients = MAXCLIENTS`). -/
def fullServer : ServerT :=
  { emptyServer with client := List.replicate MAXCLIENTS clientA }

/-- A concrete `BL_MESG` record from alice. -/
def mesgHi : MesgT := { kind := .BL_MESG, name := "alice", body := "hi" }

/-- Junk contents of the client array beyond the live prefix. -/
def junk0 : Nat → ClientT := fun _ => default

/-- A write oracle that fails exactly on `clientA`'s `to_client_fd` (5). -/
def writeFail5 : Int → Bool := fun fd => !(fd == 5)

/-- A concrete three-message log with a 5-byte `who` region. -/
def logABC : LogFile :=
  { whoSize := 5,
    msgs := [{ kind := .BL_MESG, name := "a", body := "one" },
             { kind := .BL_MESG, name := "b", body := "two" },
             { kind := .BL_MESG, name := "c", body := "three" }] }

/-- C1: the claim says `server_handle_join` reads one join record, appends a
client record and broadcasts `JOINED`.  On a server with no clients and one
pending join, the code does read exactly one record (the queue is drained)
and clears `join_ready`, but the client table stays empty and nothing is
broadcast: `server_add_client` is never called. -/
theorem C1_handle_join_no_add :
    (server_handle_join [joinAlice] emptyServer).2.1 = [] ∧
    (server_handle_join [joinAlice] emptyServer).1.client.length = 0 ∧
    (server_handle_join [joinAlice] emptyServer).1.join_ready = 0 ∧
    (server_handle_join [joinAlice] emptyServer).2.2 = [] :=
  ⟨rfl, rfl, rfl, rfl⟩

/-- C2: the claim says a received `MESG` record is broadcast unchanged to all
clients including the sender.  With two clients and client 0 delivering a
`BL_MESG` record, the code performs no write at all (the switch in the
source has no `case` labels, so every kind falls to `default`); it only
clears `data_ready` and stamps `last_contact_time`. -/
theorem C2_handle_client_no_broadcast :
    mesgHi.kind = MesgKind.BL_MESG ∧
    (server_handle_client 9 mesgHi serverAB 0).2 = [] ∧
    (server_handle_client 9 mesgHi serverAB 0).1.client =
      [{ clientA with data_ready := 0, last_contact_time := 9 }, clientB] :=
  ⟨rfl, rfl, rfl⟩

/-- C3: the claim says `poll` is given `1 + n_clients` descriptors with the
join FIFO at slot 0 and client `i` at slot `i+1`, and that `data_ready`
afterwards matches readability.  On a one-client server the code passes
`POLLIN` (= 1, not 2) as the count, lays out `[join_fd, log_fd, junk]`
instead of `[join_fd, client 0's fd]`, and even with every descriptor
readable it leaves client 0's `data_ready` at 0. -/
theorem C3_check_sources_bug :
    check_sources_nfds ≠ 1 + (serverA.client.length : Int) ∧
    check_sources_slots serverA junk0 ≠ [serverA.join_fd, clientA.to_server_fd] ∧
    ((server_check_sources (fun _ => true) junk0 serverA).client.getD 0 default).data_ready
      = 0 := by
  refine ⟨by decide, by decide, rfl⟩

/-- C4: the claim says `server_shutdown` unlinks `{server_name}.fifo` and
removes every client leaving `n_clients = 0`.  On a two-client server named
"srv" (all closes and writes succeeding) the code broadcasts `SHUTDOWN` to
both clients, but unlinks the bare path "srv" (never "srv.fifo") and its
removal loop — whose index races the shrinking table — leaves one client
behind. -/
theorem C4_shutdown_bug :
    (server_shutdown (fun _ => true) (fun _ => true) serverAB).1.client = [clientB] ∧
    (server_shutdown (fun _ => true) (fun _ => true) serverAB).2.2.1 =
      ["srv", "1.client.fifo", "1.server.fifo"] ∧
    (server_shutdown (fun _ => true) (fun _ => true) serverAB).2.2.2 =
      [⟨5, { kind := .BL_SHUTDOWN, name := "", body := "" }, true⟩,
       ⟨7, { kind := .BL_SHUTDOWN, name := "", body := "" }, true⟩] :=
  ⟨rfl, rfl, rfl⟩

/-- C5: the claim says a close failure must not prevent removal of the
client record.  On a one-client server whose closes fail, the code returns
-1 and leaves the state unchanged: the record lingers, nothing is unlinked,
and (by short-circuit) the second descriptor is not even closed. -/
theorem C5_remove_client_close_failure :
    server_remove_client (fun _ => false) serverA 0 =
      (serverA, -1, [clientA.to_client_fd], []) :=
  rfl

/-- C7: when the table is full (`n_clients = MAXCLIENTS`), `server_add_client`
returns a non-zero value, leaves the server state unchanged, and performs no
broadcast. -/
theorem C7_add_client_full (now : Int) (writeOk : Int → Bool) (openFd : String → Int)
    (server : ServerT) (join : JoinT) (h : server.client.length = MAXCLIENTS) :
    (server_add_client now writeOk openFd server join).2.1 ≠ 0 ∧
    (server_add_client now writeOk openFd server join).1 = server ∧
    (server_add_client now writeOk openFd server join).2.2 = [] := by
  unfold server_add_client
  rw [if_pos (by omega : server.client.length ≥ MAXCLIENTS)]
  exact ⟨(by decide : (-1 : Int) ≠ 0), rfl, rfl⟩

/-- C7 witness: a concrete full table refuses a join. -/
theorem C7_add_client_full_witness :
    fullServer.client.length = MAXCLIENTS ∧
    ((server_add_client 0 (fun _ => true) (fun _ => 9) fullServer joinAlice).2.1 ≠ 0 ∧
     (server_add_client 0 (fun _ => true) (fun _ => 9) fullServer joinAlice).1 = fullServer ∧
     (server_add_client 0 (fun _ => true) (fun _ => 9) fullServer joinAlice).2.2 = []) :=
  ⟨by simp [fullServer, emptyServer],
   C7_add_client_full 0 (fun _ => true) (fun _ => 9) fullServer joinAlice
     (by simp [fullServer, emptyServer])⟩

/-- Table length after `server_add_client`: unchanged on refusal, one more
on success. -/
theorem server_add_client_length (now : Int) (writeOk : Int → Bool) (openFd : String → Int)
    (server : ServerT) (join : JoinT) :
    (server_add_client now writeOk openFd server join).1.client.length =
      if server.client.length ≥ MAXCLIENTS then server.client.length
      else server.client.length + 1 := by
  unfold server_add_client
  split <;> simp

/-- `server_remove_client` never grows the table. -/
theorem server_remove_client_length_le (closeOk : Int → Bool) (server : ServerT)
    (idx : Nat) :
    (server_remove_client closeOk server idx).1.client.length ≤ server.client.length := by
  unfold server_remove_client
  split
  · exact le_rfl
  · dsimp only
    split
    · exact le_rfl
    · dsimp only
      simp only [List.length_eraseIdx]
      split <;> omega

/-- C6: along any sequence of `server_add_client` and `server_remove_client`
calls (in particular those whose removal indices are in range), the table
size invariant `0 ≤ n_clients ≤ MAXCLIENTS` is preserved: a full table
refuses the add, and removal never grows the table. -/
theorem C6_table_invariant (ops : List ServerOp) (server : ServerT)
    (h : server.client.length ≤ MAXCLIENTS) :
    0 ≤ (ops.foldl applyOp server).client.length ∧
    (ops.foldl applyOp server).client.length ≤ MAXCLIENTS := by
  refine ⟨Nat.zero_le _, ?_⟩
  induction ops generalizing server with
  | nil => simpa using h
  | cons op rest ih =>
    rw [List.foldl_cons]
    apply ih
    cases op with
    | add now writeOk openFd join =>
      show (server_add_client now writeOk openFd server join).1.client.length ≤ MAXCLIENTS
      rw [server_add_client_length]
      split <;> omega
    | remove closeOk idx =>
      show (server_remove_client closeOk server idx).1.client.length ≤ MAXCLIENTS
      exact le_trans (server_remove_client_length_le closeOk server idx) h

/-- C6 witness: an add followed by a removal from the empty table. -/
theorem C6_table_invariant_witness :
    emptyServer.client.length ≤ MAXCLIENTS ∧
    (0 ≤ ([ServerOp.add 0 (fun _ => true) (fun _ => 9) joinAlice,
           ServerOp.remove (fun _ => true) 0].foldl applyOp emptyServer).client.length ∧
     ([ServerOp.add 0 (fun _ => true) (fun _ => 9) joinAlice,
       ServerOp.remove (fun _ => true) 0].foldl applyOp emptyServer).client.length
        ≤ MAXCLIENTS) :=
  ⟨by decide, C6_table_invariant _ emptyServer (by decide)⟩

/-- The write attempts accumulated by the `server_broadcast` fold, over any
client list and any accumulator. -/
theorem server_broadcast_go (writeOk : Int → Bool) (mesg : MesgT) (l : List ClientT)
    (acc : List WriteAttempt × List String) :
    (l.foldl
      (fun acc c =>
        let ok := writeOk c.to_client_fd
        (acc.1 ++ [⟨c.to_client_fd, mesg, ok⟩], check_fail (!ok) "write error" acc.2))
      acc).1 =
      acc.1 ++ l.map (fun c => ⟨c.to_client_fd, mesg, writeOk c.to_client_fd⟩) := by
  induction l generalizing acc with
  | nil => simp
  | cons c l ih => simp [ih]

/-- C8: even when the write to some live client's `to_client_fd` fails, the
fan-out is not aborted: `server_broadcast` still issues one write of the
record to every live client's `to_client_fd` in table order (the failed
write included), and returns normally. -/
theorem C8_broadcast_no_abort (writeOk : Int → Bool) (server : ServerT) (mesg : MesgT)
    (c : ClientT) (hc : c ∈ server.client) (hfail : writeOk c.to_client_fd = false) :
    (server_broadcast writeOk server mesg).1 =
      server.client.map (fun cl => ⟨cl.to_client_fd, mesg, writeOk cl.to_client_fd⟩) ∧
    (⟨c.to_client_fd, mesg, false⟩ : WriteAttempt) ∈
      (server_broadcast writeOk server mesg).1 := by
  have h1 : (server_broadcast writeOk server mesg).1 =
      server.client.map (fun cl => ⟨cl.to_client_fd, mesg, writeOk cl.to_client_fd⟩) := by
    unfold server_broadcast
    simpa using server_broadcast_go writeOk mesg server.client ([], [])
  refine ⟨h1, ?_⟩
  rw [h1]
  have hm := List.mem_map_of_mem
    (fun cl => (⟨cl.to_client_fd, mesg, writeOk cl.to_client_fd⟩ : WriteAttempt)) hc
  simpa [hfail] using hm

/-- C8 witness: a two-client table whose first client's write fails. -/
theorem C8_broadcast_no_abort_witness :
    clientA ∈ serverAB.client ∧ writeFail5 clientA.to_client_fd = false ∧
    ((server_broadcast writeFail5 serverAB mesgHi).1 =
        serverAB.client.map
          (fun cl => ⟨cl.to_client_fd, mesgHi, writeFail5 cl.to_client_fd⟩) ∧
      (⟨clientA.to_client_fd, mesgHi, false⟩ : WriteAttempt) ∈
        (server_broadcast writeFail5 serverAB mesgHi).1) :=
  ⟨by decide, by decide,
   C8_broadcast_no_abort writeFail5 serverAB mesgHi clientA (by decide) (by decide)⟩

/-- Reading the log at the aligned byte offset of appended record `j` yields
record `j`. -/
theorem preadMesg_at (mesgSize : Nat) (hM : 0 < mesgSize) (log : LogFile) (j : Nat)
    (hj : j < log.msgs.length) :
    preadMesg mesgSize log ((log.whoSize : Int) + (j : Int) * (mesgSize : Int)) =
      some (log.msgs.getD j default) := by
  have hcast : ((log.whoSize + j * mesgSize : Nat) : Int) =
      (log.whoSize : Int) + (j : Int) * (mesgSize : Int) := by push_cast; ring
  rw [preadMesg, ← hcast, if_pos (Int.natCast_nonneg _), Int.toNat_natCast, logReadAt,
    if_pos ⟨Nat.le_add_right _ _,
      by simp [Nat.add_sub_cancel_left, Nat.mul_mod_left],
      by simpa [Nat.add_sub_cancel_left, Nat.mul_div_cancel j hM] using hj⟩]
  simp [Nat.add_sub_cancel_left, Nat.mul_div_cancel j hM]

/-- C9: in advanced mode, when the log's append region holds at least `num`
records, the `%last num` branch of `user_worker` reads and renders exactly
the last `num` records, in their original order, each as "[name] : body". -/
theorem C9_last_renders_tail (mesgSize : Nat) (hM : 0 < mesgSize) (log : LogFile)
    (num : Nat) (h : num ≤ log.msgs.length) :
    user_last mesgSize log num =
      (log.msgs.drop (log.msgs.length - num)).map (fun m => some (logRender m)) := by
  have hlen1 : (user_last mesgSize log num).length = num := by
    simp only [user_last, List.length_map, List.length_range]
  have hlen2 : ((log.msgs.drop (log.msgs.length - num)).map
      (fun m => some (logRender m))).length = num := by
    simp only [List.length_map, List.length_drop]
    omega
  apply List.ext_getElem (by rw [hlen1, hlen2])
  intro i h1 h2
  have hi : i < num := by rwa [hlen1] at h1
  have hsub : ((log.msgs.length - num : Nat) : Int) =
      (log.msgs.length : Int) - (num : Int) := Nat.cast_sub h
  have hoff : (logSize mesgSize log : Int) - (num : Int) * (mesgSize : Int) +
      (i : Int) * (mesgSize : Int) =
      (log.whoSize : Int) +
        ((log.msgs.length - num + i : Nat) : Int) * (mesgSize : Int) := by
    rw [logSize]
    push_cast [hsub]
    ring
  have hj : log.msgs.length - num + i < log.msgs.length := by omega
  simp only [user_last, List.getElem_map, List.getElem_range]
  rw [hoff, preadMesg_at mesgSize hM log _ hj, Option.map_some',
    List.getD_eq_getElem _ _ hj, List.getElem_drop]

/-- C9 witness: the last two of three log records. -/
theorem C9_last_renders_tail_witness :
    0 < 2 ∧ 2 ≤ logABC.msgs.length ∧
    user_last 2 logABC 2 =
      (logABC.msgs.drop (logABC.msgs.length - 2)).map (fun m => some (logRender m)) :=
  ⟨by decide, by decide, C9_last_renders_tail 2 (by decide) logABC 2 (by decide)⟩

/-- C10: when `idx >= n_clients`, `server_remove_client` returns a non-zero
value and performs nothing: the state is unchanged, no descriptor is closed
and no path is unlinked. -/
theorem C10_remove_client_out_of_range (closeOk : Int → Bool) (server : ServerT)
    (idx : Nat) (h : server.client.length ≤ idx) :
    (server_remove_client closeOk server idx).2.1 ≠ 0 ∧
    server_remove_client closeOk server idx = (server, -1, [], []) := by
  unfold server_remove_client
  rw [if_pos h]
  exact ⟨(by decide : (-1 : Int) ≠ 0), rfl⟩

/-- C10 witness: index 5 on a one-client server is refused untouched. -/
theorem C10_remove_client_out_of_range_witness :
    serverA.client.length ≤ 5 ∧
    ((server_remove_client (fun _ => true) serverA 5).2.1 ≠ 0 ∧
     server_remove_client (fun _ => true) serverA 5 = (serverA, -1, [], [])) :=
  ⟨by decide, C10_remove_client_out_of_range (fun _ => true) serverA 5 (by decide)⟩

end Blather
